import Mathlib

/-!
Verification of the pylognet log registry and client protocol.

The definitions below are a shallow embedding of the repository's code:

* `LogEntry`, `Log` embed `pylognet/settings.py` (`LogEntry`) and
  `pylognet/logger.py` (`Log`). The server clock read
  (`time.strftime(..., time.localtime())` in `Log.__init__`) is passed in
  explicitly as a string argument `now`.
* `Logger` and its operations embed the `Logger` class of
  `pylognet/logger.py`. The bounded `queue.Queue` field is embedded as a
  list plus an integer capacity, with `queue.Queue.put` (which blocks when
  a positively bounded queue is full) embedded as an `Option`-returning
  function: `none` models the blocked (never-completing) call.
* `HTTPResponse`, `RequestResponse`, `check_response`, `Client.ping` and
  `client_init` embed `src/client.py`. The network is passed in as a
  function `net : String → HTTPResponse` mapping a GET url to the response,
  and every function that performs requests also returns the list of
  `HTTPRequest`s it issued, so that theorems can speak about which
  requests a call performs.
-/

/-- Embeds `LogEntry` from `pylognet/settings.py`: a submitted record with
an identifier, a client-supplied timestamp, a level and a message. -/
structure LogEntry where
  id : String
  timestamp : String
  level : String
  message : String
deriving DecidableEq, Repr

/-- Embeds the `Log` class of `pylognet/logger.py`: message, level and the
timestamp fixed at construction time. -/
structure Log where
  message : String
  level : String
  timestamp : String
deriving DecidableEq, Repr

/-- Embeds `Log.__init__` (logger.py lines 10-17): the stored timestamp is
the `timestamp` argument when it is non-empty (Python truthiness of a
string), and otherwise the current server-local time, passed here as
`now`. -/
def Log.init (message : String) (level : String) (timestamp : String)
    (now : String) : Log :=
  { message := message
    level := level
    timestamp := if timestamp = "" then now else timestamp }

/-- Embeds `Log.__str__` (logger.py lines 19-20): the rendered line
`[<timestamp>] [<level>] <message>`. -/
def Log.toStr (l : Log) : String :=
  "[" ++ l.timestamp ++ "] [" ++ l.level ++ "] " ++ l.message

/-- Embeds the state of the `Logger` class (logger.py lines 24-26): the
bounded pending queue (`queue.Queue(maxsize=queue_size)`, embedded as the
list of queued entries plus the capacity) and the per-identifier log
store (`dict[str, list[Log]]`, embedded as an insertion-ordered
association list). -/
structure Logger where
  log_queue : List LogEntry
  queue_size : Int
  logs : List (String × List Log)
deriving DecidableEq, Repr

/-- Embeds `Logger.__init__` (logger.py lines 24-26): empty queue with the
given capacity, empty log store. -/
def Logger.mkLogger (queue_size : Int) : Logger :=
  { log_queue := [], queue_size := queue_size, logs := [] }

/-- Embeds `queue.Queue.put` with the default `block=True`: for a queue
with positive `maxsize` that is already full the call blocks, embedded as
`none`; otherwise the item is appended at the tail. (Python's
`queue.Queue` treats `maxsize <= 0` as unbounded.) -/
def queuePut (q : List LogEntry) (maxsize : Int) (e : LogEntry) :
    Option (List LogEntry) :=
  if 0 < maxsize ∧ maxsize ≤ (q.length : Int) then none else some (q ++ [e])

/-- Embeds the Python membership test `entry.id in self.__logs` on the
log-store dict. -/
def keyMem (logs : List (String × List Log)) (id : String) : Bool :=
  logs.any (fun p => decide (p.1 = id))

/-- Embeds `self.__logs[entry.id].append(log)` on the log-store dict:
append `log` to the sequence held at the first occurrence of key `id`.
(Dict keys are unique, so the first occurrence is the only one.) -/
def appendAt : List (String × List Log) → String → Log →
    List (String × List Log)
  | [], _, _ => []
  | (k, v) :: rest, id, log =>
    if k = id then (k, v ++ [log]) :: rest else (k, v) :: appendAt rest id log

/-- Embeds `self.__logs.get(id, [])` (dict lookup with empty default):
return the sequence at the first occurrence of key `id`, or `[]`. -/
def getLogs : List (String × List Log) → String → List Log
  | [], _ => []
  | (k, v) :: rest, id => if k = id then v else getLogs rest id

/-- Embeds `Logger.record` (logger.py lines 28-45): put the raw entry on
the bounded queue (blocking — `none` — when a positively bounded queue is
full), build `Log(entry.message, entry.level)` — note the entry's own
timestamp is NOT passed, so the `Log` timestamp defaults to the server
clock `now` — create `logs[entry.id]` if absent, append the log, and
return the rendered string. -/
def Logger.record (s : Logger) (entry : LogEntry) (now : String) :
    Option (Logger × String) :=
  match queuePut s.log_queue s.queue_size entry with
  | none => none
  | some q =>
    let log := Log.init entry.message entry.level "" now
    let logs1 := if keyMem s.logs entry.id then s.logs
                 else s.logs ++ [(entry.id, [])]
    let logs2 := appendAt logs1 entry.id log
    some ({ log_queue := q, queue_size := s.queue_size, logs := logs2 },
          log.toStr)

/-- Embeds `Logger.retrieve` (logger.py lines 47-57):
`self.__logs.get(id, [])`. -/
def Logger.retrieve (s : Logger) (id : String) : List Log :=
  getLogs s.logs id

/-- Embeds `Logger.get_services` (logger.py): `list(self.__logs.keys())`. -/
def Logger.get_services (s : Logger) : List String :=
  s.logs.map (fun p => p.1)

/-- Embeds `Logger.get_all` (logger.py): returns the full mapping. -/
def Logger.get_all (s : Logger) : List (String × List Log) :=
  s.logs

/-- Embeds `Logger.get_log_queue` (logger.py lines 77-85): the body is
`logs = []` followed by `return logs`; it never reads or mutates the
pending queue and always returns the empty list. -/
def Logger.get_log_queue (s : Logger) : List String :=
  []

/-- Embeds `Logger.clear_logs` (logger.py lines 87-91):
`self.__logs.clear()`; the pending queue field is untouched. -/
def Logger.clear_logs (s : Logger) : Logger :=
  { s with logs := [] }

/-- Embeds `Logger.clear_service_logs` (logger.py lines 93-101):
`if id in self.__logs: del self.__logs[id]`, i.e. drop the entry for `id`
when present; the pending queue field is untouched. -/
def Logger.clear_service_logs (s : Logger) (id : String) : Logger :=
  { s with logs := s.logs.filter (fun p => decide (p.1 ≠ id)) }

/-- Embeds `Logger.clear_log_queue` (logger.py lines 103-107):
`self.__log_queue.queue.clear()`; the log store is untouched. -/
def Logger.clear_log_queue (s : Logger) : Logger :=
  { s with log_queue := [] }

/-- Runs a sequence of `record` calls, each with its entry and the server
clock value at that call; `none` when some call blocks on a full queue. -/
def Logger.runRecords (s : Logger) : List (LogEntry × String) → Option Logger
  | [] => some s
  | (e, now) :: rest =>
    match s.record e now with
    | none => none
    | some (s1, _) => s1.runRecords rest

/-! ### Client-side embedding (`src/client.py`) -/

/-- Embeds the `APISettings` defaults of `src/settings.py`. -/
structure APISettings where
  PING_PATH : String
  LOG_PATH : String
deriving DecidableEq, Repr

/-- The default settings: `PING_PATH = "ping"`, `LOG_PATH = "log"`. -/
def defaultAPISettings : APISettings :=
  { PING_PATH := "ping", LOG_PATH := "log" }

/-- An HTTP response as the client sees it: status code and body. -/
structure HTTPResponse where
  status_code : Int
  body : String
deriving DecidableEq, Repr

/-- A request issued by the client: method and url. -/
structure HTTPRequest where
  method : String
  url : String
deriving DecidableEq, Repr

/-- Embeds the Python union type `RequestResponse = bool | requests.Response`:
either a bool or the full response value. -/
inductive RequestResponse where
  | ofBool : Bool → RequestResponse
  | ofResponse : HTTPResponse → RequestResponse
deriving DecidableEq, Repr

/-- Embeds the client state after construction (`src/client.py`):
identifier, endpoint (trailing slash already stripped) and settings. -/
structure Client where
  id : String
  endpoint : String
  api_settings : APISettings
deriving DecidableEq, Repr

/-- Embeds `Client.__check_response` (client.py lines 48-60): `True` for a
status code in `[200, 300)`, otherwise the full response object itself. -/
def check_response (r : HTTPResponse) : RequestResponse :=
  if 200 ≤ r.status_code ∧ r.status_code < 300 then RequestResponse.ofBool true
  else RequestResponse.ofResponse r

/-- Embeds `Client.__create_url`: `f"{endpoint}/{path}"`. -/
def create_url (endpoint path : String) : String :=
  endpoint ++ "/" ++ path

/-- Embeds the trailing-slash stripping in `Client.__init__`:
`if endpoint.endswith("/"): endpoint = endpoint[:-1]`. -/
def stripSlash (endpoint : String) : String :=
  if String.endsWith endpoint "/" then String.dropRight endpoint 1
  else endpoint

/-- Embeds `Client.ping` (client.py): GET the ping path (default from the
settings when `api` is `none`) and classify the response; also returns the
single request it issued. -/
def Client.ping (c : Client) (api : Option String)
    (net : String → HTTPResponse) : RequestResponse × List HTTPRequest :=
  let api1 := match api with
    | none => c.api_settings.PING_PATH
    | some a => a
  let url := create_url c.endpoint api1
  (check_response (net url), [{ method := "GET", url := url }])

/-- Embeds `Client.__init__` (client.py lines 11-34): store id and
settings, strip a trailing slash from the endpoint, issue one ping, and
raise `ConnectionError` (`Except.error`) unless the ping classifies as the
boolean `True` (the Python guard is `if self.ping() is not True`). The
list of HTTP requests issued during construction is returned alongside. -/
def client_init (logger_id endpoint : String) (api_settings : APISettings)
    (net : String → HTTPResponse) :
    Except String Client × List HTTPRequest :=
  let ep := stripSlash endpoint
  let c : Client := { id := logger_id, endpoint := ep,
                      api_settings := api_settings }
  let pr := c.ping none net
  match pr.1 with
  | RequestResponse.ofBool true => (Except.ok c, pr.2)
  | _ =>
    (Except.error ("Unable to reach logging service at " ++ ep), pr.2)

/-! ### Helper lemmas on the log-store association list -/

theorem keyMem_append_self (logs : List (String × List Log)) (k : String)
    (v : List Log) : keyMem (logs ++ [(k, v)]) k = true := by
  simp [keyMem]

theorem getLogs_append_new (logs : List (String × List Log)) (k id : String)
    (h : keyMem logs k = false) :
    getLogs (logs ++ [(k, [])]) id = getLogs logs id := by
  induction logs with
  | nil =>
    show (if k = id then ([] : List Log) else getLogs [] id) = getLogs [] id
    split <;> rfl
  | cons p rest ih =>
    obtain ⟨k1, v⟩ := p
    simp [keyMem] at h
    by_cases hid : k1 = id
    · simp [getLogs, hid]
    · simp only [List.cons_append, getLogs, hid, if_neg]
      refine ih ?_
      simp only [keyMem, List.any_eq_true, decide_eq_true_eq] at h ⊢
      simpa using h.2

theorem getLogs_appendAt (logs : List (String × List Log)) (k : String)
    (log : Log) (id : String) (h : keyMem logs k = true) :
    getLogs (appendAt logs k log) id =
      getLogs logs id ++ (if k = id then [log] else []) := by
  induction logs with
  | nil => simp [keyMem] at h
  | cons p rest ih =>
    obtain ⟨k1, v⟩ := p
    by_cases hk : k1 = k
    · subst hk
      by_cases hid : k1 = id
      · subst hid; simp [appendAt, getLogs]
      · simp [appendAt, getLogs, hid]
    · simp [keyMem, Ne.symm hk] at h
      by_cases hid : k1 = id
      · subst hid
        have hk2 : k ≠ k1 := fun he => hk he.symm
        simp [appendAt, getLogs, hk, hk2]
      · simp only [appendAt, if_neg hk, getLogs, if_neg hid]
        refine ih ?_
        simp [keyMem]
        exact h.resolve_left hk

/-- One `record` step: how it changes `retrieve`, the rendered return
string, and the pending queue, for an arbitrary starting state. -/
theorem record_spec (s s' : Logger) (e : LogEntry) (now : String)
    (out : String) (id : String) (h : s.record e now = some (s', out)) :
    s'.retrieve id = s.retrieve id ++
        (if e.id = id then [Log.init e.message e.level "" now] else [])
    ∧ out = (Log.init e.message e.level "" now).toStr
    ∧ s'.log_queue = s.log_queue ++ [e]
    ∧ s'.queue_size = s.queue_size := by
  unfold Logger.record queuePut at h
  by_cases hfull : 0 < s.queue_size ∧ s.queue_size ≤ (s.log_queue.length : Int)
  · simp [hfull] at h
  · simp only [if_neg hfull] at h
    by_cases hmem : keyMem s.logs e.id
    · simp only [hmem, if_true] at h
      obtain ⟨hs, ho⟩ := Prod.mk.injEq .. ▸ Option.some.injEq .. ▸ h
      refine ⟨?_, ho.symm, ?_, ?_⟩
      · rw [← hs]
        exact getLogs_appendAt s.logs e.id _ id hmem
      · rw [← hs]
      · rw [← hs]
    · simp only [hmem, if_false, Bool.false_eq_true] at h
      obtain ⟨hs, ho⟩ := Prod.mk.injEq .. ▸ Option.some.injEq .. ▸ h
      refine ⟨?_, ho.symm, ?_, ?_⟩
      · rw [← hs]
        show getLogs (appendAt (s.logs ++ [(e.id, [])]) e.id _) id = _
        rw [getLogs_appendAt _ e.id _ id
              (keyMem_append_self s.logs e.id []),
            getLogs_append_new s.logs e.id id (by simpa using hmem)]
        rfl
      · rw [← hs]
      · rw [← hs]

/-- Running a list of `record` calls: cumulative effect on `retrieve` and
on the pending queue. -/
theorem runRecords_spec (l : List (LogEntry × String)) (s s' : Logger)
    (id : String) (h : s.runRecords l = some s') :
    s'.retrieve id = s.retrieve id ++
      (l.filter (fun p => decide (p.1.id = id))).map
        (fun p => Log.init p.1.message p.1.level "" p.2)
    ∧ s'.log_queue = s.log_queue ++ l.map Prod.fst
    ∧ s'.queue_size = s.queue_size := by
  induction l generalizing s with
  | nil =>
    simp only [Logger.runRecords, Option.some.injEq] at h
    subst h
    simp
  | cons p rest ih =>
    obtain ⟨e, now⟩ := p
    unfold Logger.runRecords at h
    cases hrec : s.record e now with
    | none => rw [hrec] at h; exact absurd h (by simp)
    | some pr =>
      obtain ⟨s1, out⟩ := pr
      rw [hrec] at h
      have hstep := record_spec s s1 e now out id hrec
      have hrest := ih s1 h
      refine ⟨?_, ?_, ?_⟩
      · rw [hrest.1, hstep.1]
        by_cases he : e.id = id
        · simp [List.filter_cons, he]
        · simp [List.filter_cons, he]
      · rw [hrest.2.1, hstep.2.2.1]
        simp
      · rw [hrest.2.2, hstep.2.2.2]

/-! ### Concrete fixtures used by witnesses -/

/-- A concrete entry for identifier "a". -/
def eA1 : LogEntry :=
  { id := "a", timestamp := "2024-01-01T00:00:01", level := "INFO",
    message := "m1" }

/-- A concrete entry for identifier "b". -/
def eB1 : LogEntry :=
  { id := "b", timestamp := "2024-01-01T00:00:02", level := "ERROR",
    message := "m2" }

/-- A second concrete entry for identifier "a". -/
def eA2 : LogEntry :=
  { id := "a", timestamp := "2024-01-01T00:00:03", level := "INFO",
    message := "m3" }

/-- A concrete sequence of three `record` calls with their server clocks. -/
def sampleRun : List (LogEntry × String) :=
  [(eA1, "n1"), (eB1, "n2"), (eA2, "n3")]

/-- The registry state after running `sampleRun` on a fresh `Logger 10`. -/
def sampleState : Logger :=
  { log_queue := [eA1, eB1, eA2],
    queue_size := 10,
    logs := [("a", [{ message := "m1", level := "INFO", timestamp := "n1" },
                    { message := "m3", level := "INFO", timestamp := "n3" }]),
             ("b", [{ message := "m2", level := "ERROR", timestamp := "n2" }])] }

/-! ### Claims -/

/-- C1: after any sequence of `record` calls on a fresh registry,
`retrieve id` returns exactly the rendered logs of the entries whose id
equals `id`, in call order, and its length equals the number of `record`
calls for that identifier (in particular it is empty, with no error, for
an identifier that was never recorded). -/
theorem c1_retrieve_call_order (qsize : Int) (l : List (LogEntry × String))
    (s : Logger) (id : String)
    (h : (Logger.mkLogger qsize).runRecords l = some s) :
    s.retrieve id = (l.filter (fun p => decide (p.1.id = id))).map
        (fun p => Log.init p.1.message p.1.level "" p.2)
    ∧ (s.retrieve id).length =
        (l.filter (fun p => decide (p.1.id = id))).length := by
  have hs := (runRecords_spec l (Logger.mkLogger qsize) s id h).1
  have h0 : (Logger.mkLogger qsize).retrieve id = [] := rfl
  rw [h0, List.nil_append] at hs
  exact ⟨hs, by rw [hs, List.length_map]⟩

/-- Witness for C1 at a concrete three-call run. -/
theorem c1_retrieve_call_order_witness :
    (Logger.mkLogger 10).runRecords sampleRun = some sampleState
    ∧ sampleState.retrieve "a" =
        (sampleRun.filter (fun p => decide (p.1.id = "a"))).map
          (fun p => Log.init p.1.message p.1.level "" p.2)
    ∧ (sampleState.retrieve "a").length =
        (sampleRun.filter (fun p => decide (p.1.id = "a"))).length :=
  ⟨rfl, c1_retrieve_call_order 10 sampleRun sampleState "a" rfl⟩

/-- C2 counterexample: `record` does NOT use the entry's own timestamp.
For an entry that supplies the timestamp `2024-01-01T00:00:00`, the
rendered Log carries the server clock (`2025-06-05 12:00:00`), not the
entry's timestamp, so the claim "the timestamp is the entry's own
timestamp whenever the entry provides one" is false. -/
theorem c2_timestamp_counterexample :
    ((Logger.mkLogger 10).record
        { id := "svc1", timestamp := "2024-01-01T00:00:00",
          level := "INFO", message := "boot" }
        "2025-06-05 12:00:00").map (fun p => p.2) =
      some "[2025-06-05 12:00:00] [INFO] boot"
    ∧ ("[2025-06-05 12:00:00] [INFO] boot" : String) ≠
        "[2024-01-01T00:00:00] [INFO] boot" :=
  ⟨rfl, by decide⟩

/-- C2 amended: every completed `record` renders the entry into a Log
whose timestamp is always the server's current local time `now`; the
entry's own timestamp is never consulted by the rendering. The returned
string is the rendered form of that Log. -/
theorem c2_record_server_timestamp (s : Logger) (e : LogEntry)
    (now : String) (s' : Logger) (out : String)
    (h : s.record e now = some (s', out)) :
    out = (Log.init e.message e.level "" now).toStr
    ∧ (Log.init e.message e.level "" now).timestamp = now :=
  ⟨(record_spec s s' e now out e.id h).2.1, by simp [Log.init]⟩

/-- Witness for the amended C2 at a concrete record call. -/
theorem c2_record_server_timestamp_witness :
    (Logger.mkLogger 10).record eA1 "n1" =
      some ({ log_queue := [eA1], queue_size := 10,
              logs := [("a", [⟨"m1", "INFO", "n1"⟩])] },
            "[n1] [INFO] m1")
    ∧ ("[n1] [INFO] m1" = (Log.init eA1.message eA1.level "" "n1").toStr
       ∧ (Log.init eA1.message eA1.level "" "n1").timestamp = "n1") :=
  ⟨rfl, c2_record_server_timestamp (Logger.mkLogger 10) eA1 "n1" _ _ rfl⟩

/-- C3: after any number of `record` calls on a fresh registry,
`get_log_queue` returns the empty sequence even though the pending queue
holds every recorded entry — it neither drains nor modifies the queue,
which still contains exactly the submitted entries in order. -/
theorem c3_get_log_queue_always_empty (qsize : Int)
    (l : List (LogEntry × String)) (s : Logger)
    (h : (Logger.mkLogger qsize).runRecords l = some s) :
    s.get_log_queue = [] ∧ s.log_queue = l.map Prod.fst := by
  refine ⟨rfl, ?_⟩
  have hq := (runRecords_spec l (Logger.mkLogger qsize) s "" h).2.1
  simpa [Logger.mkLogger] using hq

/-- Witness for C3 at a concrete three-call run: the getter returns `[]`
while the queue holds the three raw entries. -/
theorem c3_get_log_queue_always_empty_witness :
    (Logger.mkLogger 10).runRecords sampleRun = some sampleState
    ∧ sampleState.get_log_queue = []
    ∧ sampleState.log_queue = sampleRun.map Prod.fst :=
  ⟨rfl, c3_get_log_queue_always_empty 10 sampleRun sampleState rfl⟩

/-- C4: every Log built by the constructor renders, bit-exactly, as
`[<timestamp>] [<level>] <message>`, where the stored timestamp is the
constructor argument when non-empty and the server clock otherwise. -/
theorem c4_render_format (m lvl t now : String) :
    (Log.init m lvl t now).toStr =
      "[" ++ (Log.init m lvl t now).timestamp ++ "] [" ++ lvl ++ "] " ++ m
    ∧ (Log.init m lvl t now).timestamp = (if t = "" then now else t) :=
  ⟨rfl, rfl⟩

/-- C5: the client's uniform response classification returns the boolean
`True` exactly when the status code lies in `[200, 300)`, and for any
other status code returns the full response value itself (never any other
boolean). -/
theorem c5_check_response_classification (r : HTTPResponse) :
    (check_response r = RequestResponse.ofBool true ↔
        (200 ≤ r.status_code ∧ r.status_code < 300))
    ∧ (check_response r = RequestResponse.ofResponse r ↔
        ¬(200 ≤ r.status_code ∧ r.status_code < 300))
    ∧ check_response r ≠ RequestResponse.ofBool false := by
  unfold check_response
  by_cases hc : 200 ≤ r.status_code ∧ r.status_code < 300
  · simp [hc]
  · simp [hc]

/-- C6: client construction strips a trailing slash from the endpoint and
issues exactly one HTTP request — a GET of the ping url, never a log POST;
it yields a usable client (with the stripped endpoint stored) exactly when
the ping response classifies as the boolean success, and otherwise fails
with a connectivity error. -/
theorem c6_client_init_ping_gate (logger_id endpoint : String)
    (settings : APISettings) (net : String → HTTPResponse) :
    (client_init logger_id endpoint settings net).2 =
      [{ method := "GET",
         url := create_url (stripSlash endpoint) settings.PING_PATH }]
    ∧ (client_init logger_id endpoint settings net).2.all
        (fun r => decide (r.method ≠ "POST")) = true
    ∧ ((client_init logger_id endpoint settings net).1 =
          Except.ok { id := logger_id, endpoint := stripSlash endpoint,
                      api_settings := settings } ↔
        check_response
            (net (create_url (stripSlash endpoint) settings.PING_PATH)) =
          RequestResponse.ofBool true)
    ∧ ((client_init logger_id endpoint settings net).1 =
          Except.error ("Unable to reach logging service at " ++
            stripSlash endpoint) ↔
        ¬check_response
            (net (create_url (stripSlash endpoint) settings.PING_PATH)) =
          RequestResponse.ofBool true) := by
  cases hc : check_response
      (net (create_url (stripSlash endpoint) settings.PING_PATH)) with
  | ofBool b =>
    cases b
    · simp [client_init, Client.ping, hc]
    · simp [client_init, Client.ping, hc]
  | ofResponse r =>
    simp [client_init, Client.ping, hc]

/-- C7: `clear_service_logs id` makes a subsequent `retrieve id` empty,
leaves every other identifier's sequence unchanged, is the identity (a
no-op, not an error) when `id` is absent, and never touches the pending
queue. -/
theorem c7_clear_service_logs_frame (s : Logger) (id id' : String) :
    (s.clear_service_logs id).retrieve id = []
    ∧ (id' ≠ id → (s.clear_service_logs id).retrieve id' = s.retrieve id')
    ∧ (keyMem s.logs id = false → s.clear_service_logs id = s)
    ∧ (s.clear_service_logs id).log_queue = s.log_queue := by
  refine ⟨?_, ?_, ?_, rfl⟩
  · show getLogs (s.logs.filter (fun p => decide (p.1 ≠ id))) id = []
    induction s.logs with
    | nil => rfl
    | cons p rest ih =>
      obtain ⟨k, v⟩ := p
      by_cases hk : k = id
      · simpa [List.filter_cons, hk] using ih
      · simpa [List.filter_cons, hk, getLogs] using ih
  · intro hne
    show getLogs (s.logs.filter (fun p => decide (p.1 ≠ id))) id' =
      getLogs s.logs id'
    induction s.logs with
    | nil => rfl
    | cons p rest ih =>
      obtain ⟨k, v⟩ := p
      by_cases hk : k = id
      · simpa [List.filter_cons, hk, getLogs, hne.symm] using ih
      · by_cases hk2 : k = id'
        · simp [List.filter_cons, hk, getLogs, hk2, hne]
        · simpa [List.filter_cons, hk, getLogs, hk2] using ih
  · intro habs
    have hall : s.logs.filter (fun p => decide (p.1 ≠ id)) = s.logs := by
      apply List.filter_eq_self.mpr
      intro p hp
      simp only [decide_eq_true_eq]
      intro he
      have hkm : keyMem s.logs id = true := by
        simp only [keyMem, List.any_eq_true, decide_eq_true_eq]
        exact ⟨p, hp, he⟩
      rw [habs] at hkm
      exact Bool.false_ne_true hkm
    show ({ s with logs := s.logs.filter (fun p => decide (p.1 ≠ id)) } :
        Logger) = s
    rw [hall]

/-- C8 counterexample: `record` does NOT complete when the bounded pending
queue already holds its capacity of entries — `queue.Queue.put` (called
with the blocking default) blocks, embedded as `none`. Concretely, with
capacity 1 and one entry already queued, the next `record` call never
completes. -/
theorem c8_record_blocks_at_capacity :
    ({ log_queue := [eA1], queue_size := 1, logs := [] } : Logger).record
      eB1 "n2" = none := by
  decide

/-- C8 amended: all Registry operations are written as total functions and
raise no domain error, but `record` completes exactly when the pending
queue is below its capacity (or the capacity is non-positive, which
Python's `queue.Queue` treats as unbounded); at capacity the queue `put`
blocks and `record` never completes. The remaining operations are total
over all states. -/
theorem c8_totality_except_full_queue (s : Logger) (e : LogEntry)
    (now : String) (id : String) :
    ((s.record e now).isSome ↔
      (s.queue_size ≤ 0 ∨ (s.log_queue.length : Int) < s.queue_size))
    ∧ s.retrieve id = s.retrieve id
    ∧ (s.clear_logs).logs = []
    ∧ (s.clear_log_queue).log_queue = [] := by
  refine ⟨?_, rfl, rfl, rfl⟩
  have hrq : (s.record e now).isSome =
      (queuePut s.log_queue s.queue_size e).isSome := by
    unfold Logger.record
    cases h : queuePut s.log_queue s.queue_size e
    · rfl
    · rfl
  rw [show ((s.record e now).isSome ↔ _) =
        ((s.record e now).isSome = true ↔ _) from rfl, hrq]
  unfold queuePut
  by_cases hfull : 0 < s.queue_size ∧ s.queue_size ≤ (s.log_queue.length : Int)
  · rw [if_pos hfull]
    simp only [Option.isSome_none, Bool.false_eq_true, false_iff]
    omega
  · rw [if_neg hfull]
    simp only [Option.isSome_some, true_iff]
    omega

/-- C10: `clear_logs` empties the per-identifier log store but leaves the
pending queue exactly as it was; the entries put there by `record` (which
appends each raw entry to the queue) survive `clear_logs` (and also
`clear_service_logs`); only `clear_log_queue` empties the queue, and it
leaves the log store untouched. -/
theorem c10_clear_logs_keeps_queue (s : Logger) (id : String) :
    (s.clear_logs).log_queue = s.log_queue
    ∧ (s.clear_logs).logs = []
    ∧ (s.clear_log_queue).log_queue = []
    ∧ (s.clear_log_queue).logs = s.logs
    ∧ (s.clear_service_logs id).log_queue = s.log_queue
    ∧ (∀ e now s' out, s.record e now = some (s', out) →
        s'.log_queue = s.log_queue ++ [e]) := by
  refine ⟨rfl, rfl, rfl, rfl, rfl, ?_⟩
  intro e now s' out h
  exact (record_spec s s' e now out id h).2.2.1
